import Mathlib

/-!
Verification of `node-remote-steam-manager` (client `RemoteClient` and server
`RemoteManager`), shallowly embedded in Lean 4.

The embedding models:
* the request correlator (`RemoteClient.prototype.request`): a promise with a
  timeout timer and an acknowledgment callback sharing the mutable `timeout`
  variable;
* the constructor's `requestTimeout || 90000` default;
* the server's `authorization` middleware over an IP allowlist;
* the event router (`socket.use` with the fixed event list) and manager
  registry (`findBySteamID` plus the per-event `callback`);
* the event forwarder (`Object.assign(data, steamID)` broadcasts), with JS
  `Object.assign` semantics for a string source;
* the client connection supervisor (`setConnection`): the socket.io client
  treats `disconnect` as a reserved event, so `io.emit('disconnect')`
  dispatches locally to the registered `disconnect` handler.
-/

namespace RemoteSteam

/-! ## Request correlator (`RemoteClient.prototype.request`)

The promise executor installs a timer whose handler sets the shared variable
`timeout` to `null` and rejects with `Error('Request Timeout')`, and emits the
event with an acknowledgment callback that runs only while `timeout !== null`:
it clears the timer, then rejects with `new Error(err)` when `err` is truthy
and resolves with `data` otherwise.  The promise itself settles at most once:
later `resolve`/`reject` calls are ignored. -/

/-- An observable event delivered to the closure of `request`: the timer
firing, or the acknowledgment callback being invoked with `(err, data)`.
`err` is `none` for JS `null`/`undefined`. -/
inductive Ev (α : Type) where
  | fire : Ev α
  | cb (err : Option String) (data : α) : Ev α
deriving DecidableEq

/-- State of one `request` call: whether the `setTimeout` timer is still
pending (not fired, not cleared), whether the `timeout` variable is non-null,
and the promise's settlement (`none` while pending; `Except.error msg` for a
rejection with an `Error` whose message is `msg`, `Except.ok` for a
resolution). -/
structure ReqState (α : Type) where
  timerActive : Bool
  timeoutNonNull : Bool
  settled : Option (Except String α)

/-- Promise settlement: `resolve`/`reject` take effect only on a pending
promise; once settled, further calls are ignored. -/
def settle {α : Type} (s : ReqState α) (o : Except String α) : ReqState α :=
  if s.settled.isNone then { s with settled := some o } else s

/-- JS truthiness of the callback's first argument (`null`/`undefined` and the
empty string are falsy). -/
def jsTruthyStr : Option String → Bool
  | none => false
  | some m => m ≠ ""

/-- One event processed by the closures of `request`.  The timer handler runs
only if the timer is still pending; it nulls `timeout` and rejects with
message `"Request Timeout"`.  The callback body runs under the guard
`timeout !== null`: it clears the timer (without nulling the variable), then
rejects with `new Error(err)` if `err` is truthy, else resolves with `data`. -/
def step {α : Type} (s : ReqState α) : Ev α → ReqState α
  | .fire =>
    if s.timerActive then
      settle { s with timerActive := false, timeoutNonNull := false }
        (.error "Request Timeout")
    else s
  | .cb err data =>
    if s.timeoutNonNull then
      let s' := { s with timerActive := false }
      if jsTruthyStr err then settle s' (.error (err.getD ""))
      else settle s' (.ok data)
    else s

/-- Initial state of a call: timer pending, `timeout` non-null, promise
pending. -/
def initReq {α : Type} : ReqState α := ⟨true, true, none⟩

/-- Run a finite interleaving of timer/callback events. -/
def run {α : Type} (t : List (Ev α)) : ReqState α := t.foldl step initReq

/-- `resolve`/`reject` always leave the promise settled. -/
theorem settle_isSome {α : Type} (s : ReqState α) (o : Except String α) :
    (settle s o).settled.isSome = true := by
  rcases hs : s.settled with _ | v <;> simp [settle, hs]

/-- A settled promise stays settled with the same outcome through any event. -/
theorem settled_step {α : Type} (s : ReqState α) (e : Ev α)
    (o : Except String α) (h : s.settled = some o) :
    (step s e).settled = some o := by
  cases e with
  | fire =>
    simp only [step]
    split
    · simp [settle, h]
    · exact h
  | cb err data =>
    simp only [step]
    split
    · simp only [settle, h, Option.isNone_some, Bool.false_eq_true,
        if_false]
      split <;> simp [h]
    · exact h

/-- A settled promise stays settled through any suffix of events. -/
theorem settled_foldl {α : Type} (t : List (Ev α)) (s : ReqState α)
    (o : Except String α) (h : s.settled = some o) :
    (t.foldl step s).settled = some o := by
  induction t generalizing s with
  | nil => exact h
  | cons e t ih => exact ih _ (settled_step s e o h)

/-- Invariant: while the promise is unsettled, the timer is still pending. -/
theorem pending_timer_foldl {α : Type} (t : List (Ev α)) (s : ReqState α)
    (h : s.settled.isSome = true ∨ s.timerActive = true) :
    (t.foldl step s).settled.isSome = true ∨
      (t.foldl step s).timerActive = true := by
  induction t generalizing s with
  | nil => exact h
  | cons e t ih =>
    apply ih
    rcases h with h | h
    · rcases Option.isSome_iff_exists.mp h with ⟨o, ho⟩
      exact Or.inl (by simp [settled_step s e o ho])
    · cases e with
      | fire =>
        simp only [step, h, if_true]
        exact Or.inl (settle_isSome _ _)
      | cb err data =>
        simp only [step]
        split
        · split
          · exact Or.inl (settle_isSome _ _)
          · exact Or.inl (settle_isSome _ _)
        · exact Or.inr h

/-- `resolve`/`reject` on an already-settled promise is a no-op. -/
theorem settle_of_isSome {α : Type} (s : ReqState α) (o : Except String α)
    (h : s.settled.isSome = true) : settle s o = s := by
  unfold settle
  rcases hs : s.settled with _ | v
  · rw [hs] at h
    simp at h
  · simp [hs]

/-- Once the timer has fired (variable nulled, timer gone), every further
event is a no-op on the closure state. -/
theorem stuck_step {α : Type} (s : ReqState α) (e : Ev α)
    (h1 : s.timerActive = false) (h2 : s.timeoutNonNull = false) :
    step s e = s := by
  cases e <;> simp [step, h1, h2]

/-- `stuck_step`, iterated over a whole suffix of events. -/
theorem stuck_foldl {α : Type} (t : List (Ev α)) (s : ReqState α)
    (h1 : s.timerActive = false) (h2 : s.timeoutNonNull = false) :
    t.foldl step s = s := by
  induction t with
  | nil => rfl
  | cons e t ih =>
    rw [List.foldl_cons, stuck_step s e h1 h2]
    exact ih

/-- After the callback has settled the promise and cleared the timer, every
further event leaves the closure state unchanged. -/
theorem settled_cb_step {α : Type} (s : ReqState α) (e : Ev α)
    (h1 : s.timerActive = false) (h2 : s.settled.isSome = true) :
    step s e = s := by
  have hself : ({ s with timerActive := false } : ReqState α) = s := by
    cases s
    simp_all
  cases e with
  | fire => simp [step, h1]
  | cb err data =>
    simp only [step]
    split
    · rw [hself]
      split <;> exact settle_of_isSome s _ h2
    · rfl

/-- `settled_cb_step`, iterated over a whole suffix of events. -/
theorem settled_cb_foldl {α : Type} (t : List (Ev α)) (s : ReqState α)
    (h1 : s.timerActive = false) (h2 : s.settled.isSome = true) :
    t.foldl step s = s := by
  induction t with
  | nil => rfl
  | cons e t ih =>
    rw [List.foldl_cons, settled_cb_step s e h1 h2]
    exact ih

/-- C1: for every call made through `request`, exactly one outcome is ever
delivered: once the timer is no longer pending (it fired or was cleared by the
acknowledgment callback), the promise is settled — never zero outcomes — and
whatever outcome the promise has settled to is preserved by every further
interleaving of timer and callback events (callbacks invoked multiple times
included) — never more than one outcome. -/
theorem request_exactly_one_outcome {α : Type} (t t' : List (Ev α)) :
    ((run t).timerActive = false → (run t).settled.isSome = true) ∧
    (∀ o, (run t).settled = some o → (run (t ++ t')).settled = some o) := by
  constructor
  · intro h
    rcases pending_timer_foldl t (initReq (α := α)) (Or.inr rfl) with h' | h'
    · exact h'
    · rw [run] at h
      rw [h] at h'
      exact absurd h' (by simp)
  · intro o ho
    rw [run, List.foldl_append]
    exact settled_foldl t' _ o ho

/-- Witness for C1 at concrete inputs. -/
theorem request_exactly_one_outcome_witness :
    (run ([Ev.fire] : List (Ev String))).settled.isSome = true ∧
    (run ([Ev.fire] ++ [Ev.cb none "x"])).settled =
      some (Except.error "Request Timeout") :=
  ⟨(request_exactly_one_outcome [Ev.fire] []).1 (by rfl),
   (request_exactly_one_outcome [Ev.fire] [Ev.cb none "x"]).2
     (Except.error "Request Timeout") (by rfl)⟩

/-- C2: when the timer fires before the acknowledgment callback, the call is
rejected with an `Error` whose message is `"Request Timeout"`, and every
subsequent event — in particular any late callback invocation — is a complete
no-op on the closure state (no resolve, no reject, no throw). -/
theorem timeout_fires_first {α : Type} (t' : List (Ev α)) :
    (run (Ev.fire :: t')).settled = some (Except.error "Request Timeout") ∧
    run (Ev.fire :: t') = run [Ev.fire] := by
  have heq : run (Ev.fire :: t') = run [Ev.fire] := by
    show List.foldl step initReq (Ev.fire :: t') =
      List.foldl step initReq [Ev.fire]
    rw [List.foldl_cons, List.foldl_cons, List.foldl_nil]
    exact stuck_foldl t' (step initReq Ev.fire) rfl rfl
  exact ⟨by rw [heq]; rfl, heq⟩

/-- C3 counterexample: the callback's first argument `""` is non-null, yet the
call resolves with the second argument instead of rejecting — the code guards
with JS truthiness (`if (err)`), not with a non-null check. -/
theorem callback_empty_error_resolves :
    (run [Ev.cb (some "") "payload"]).settled = some (Except.ok "payload") := by
  rfl

/-- C3 (amended): when the acknowledgment callback is invoked before the timer
fires, the timer is cancelled; if the first argument is truthy (non-null and
non-empty) the call rejects with an `Error` carrying that string as message,
otherwise it resolves with the callback's second argument; later events leave
the state unchanged. -/
theorem callback_fires_first {α : Type} (err : Option String) (d : α)
    (t' : List (Ev α)) :
    (run (Ev.cb err d :: t')).timerActive = false ∧
    run (Ev.cb err d :: t') = run [Ev.cb err d] ∧
    (run (Ev.cb err d :: t')).settled =
      some (if jsTruthyStr err then Except.error (err.getD "")
            else Except.ok d) := by
  have hs1 : step (initReq (α := α)) (Ev.cb err d) =
      ⟨false, true,
        some (if jsTruthyStr err then Except.error (err.getD "")
              else Except.ok d)⟩ := by
    cases h : jsTruthyStr err <;> simp [step, initReq, settle, h]
  have heq : run (Ev.cb err d :: t') = run [Ev.cb err d] := by
    show List.foldl step initReq (Ev.cb err d :: t') =
      List.foldl step initReq [Ev.cb err d]
    rw [List.foldl_cons, List.foldl_cons, List.foldl_nil]
    exact settled_cb_foldl t' _ (by rw [hs1]) (by rw [hs1]; rfl)
  have hone : run ([Ev.cb err d] : List (Ev α)) =
      ⟨false, true,
        some (if jsTruthyStr err then Except.error (err.getD "")
              else Except.ok d)⟩ := by
    show List.foldl step initReq [Ev.cb err d] = _
    rw [List.foldl_cons, List.foldl_nil, hs1]
  refine ⟨?_, heq, ?_⟩
  · rw [heq, hone]
  · rw [heq, hone]

/-! ## Constructor default (`this.requestTimeout = requestTimeout || 90000`) -/

/-- The `requestTimeout` option as received by the constructor: absent
(`undefined`), `null`, or a number. -/
inductive JsNumOpt where
  | undefined : JsNumOpt
  | null : JsNumOpt
  | num (n : Int) : JsNumOpt
deriving DecidableEq

/-- JS truthiness of a numeric option (`undefined`, `null` and `0` are
falsy). -/
def jsNumTruthy : JsNumOpt → Bool
  | .num n => n ≠ 0
  | _ => false

/-- `requestTimeout || 90000`: the value itself when truthy, else the
default. -/
def effectiveRequestTimeout (requestTimeout : JsNumOpt) : Int :=
  match requestTimeout with
  | .num n => if n ≠ 0 then n else 90000
  | _ => 90000

/-- C10: a falsy `requestTimeout` option (absent, `null`, `0`) yields the
default 90000 ms, and the effective timeout can never be 0 because the
constructor tests truthiness rather than definedness. -/
theorem requestTimeout_default (v : JsNumOpt) :
    (jsNumTruthy v = false → effectiveRequestTimeout v = 90000) ∧
    effectiveRequestTimeout v ≠ 0 := by
  cases v with
  | undefined => exact ⟨fun _ => rfl, by decide⟩
  | null => exact ⟨fun _ => rfl, by decide⟩
  | num n =>
    constructor
    · intro h
      simp only [jsNumTruthy, decide_not] at h
      simp [effectiveRequestTimeout, Decidable.not_not.mp (of_decide_eq_false (by simpa using h))]
    · by_cases hn : n = 0 <;> simp [effectiveRequestTimeout, hn]

/-- Witness for C10 at the concrete input `0`. -/
theorem requestTimeout_default_witness :
    effectiveRequestTimeout (JsNumOpt.num 0) = 90000 ∧
    effectiveRequestTimeout (JsNumOpt.num 0) ≠ 0 :=
  ⟨(requestTimeout_default (JsNumOpt.num 0)).1 (by decide),
   (requestTimeout_default (JsNumOpt.num 0)).2⟩

/-! ## Authorization gate (server `authorization` middleware)

`socketIP` is `handshake.headers['x-forwarded-for'] || handshake.address`.
The middleware disconnects when neither the raw address nor the address with
every character other than a digit or a dot removed is in `allowedIP`;
when `socketIP` is `undefined` the expression `socketIP.replace(...)` throws a
`TypeError` instead. -/

/-- Result of the `authorization` middleware on one connection: `next()` was
called, the socket was disconnected, or the middleware threw a `TypeError`. -/
inductive AuthResult where
  | accepted : AuthResult
  | disconnected : AuthResult
  | threw : AuthResult
deriving DecidableEq

/-- JS `a || b` on two possibly-absent strings (an absent header is
`undefined`; an empty string is falsy and also falls through). -/
def jsOrStr : Option String → Option String → Option String
  | some s, b => if s = "" then b else some s
  | none, b => b

/-- `socketIP.replace(/[^\d.]/g, '')`: keep only decimal digits and dots. -/
def stripNonDigitDot (s : String) : String :=
  String.mk (s.data.filter (fun c => c.isDigit || c = '.'))

/-- The `authorization` middleware: derive `socketIP`, accept when the raw
string or its digit/dot reduction is an allowlist member, otherwise
disconnect; with no derivable address the `.replace` call throws. -/
def authorization (allowedIP : List String) (xff addr : Option String) :
    AuthResult :=
  match jsOrStr xff addr with
  | none => .threw
  | some socketIP =>
    if socketIP = "" ∨ socketIP ∉ allowedIP then
      if stripNonDigitDot socketIP ∉ allowedIP then .disconnected
      else .accepted
    else .accepted

/-- Stripping the empty string is the identity. -/
theorem stripNonDigitDot_empty : stripNonDigitDot "" = "" := rfl

/-- C4: whenever a peer address is derivable (forwarded-for header preferred,
socket address as fallback), the gate calls `next` iff the raw address or its
digit/dot-stripped form is in the allowlist; in particular, with allowlist
`["127.0.0.1", "::1"]`, `"::ffff:127.0.0.1"` is accepted and `"10.0.0.5"` is
rejected. -/
theorem authorization_accepts_iff (allow : List String)
    (xff addr : Option String) (s : String)
    (h : jsOrStr xff addr = some s) :
    (authorization allow xff addr = AuthResult.accepted ↔
      (s ∈ allow ∨ stripNonDigitDot s ∈ allow)) ∧
    authorization ["127.0.0.1", "::1"] (some "::ffff:127.0.0.1") none =
      AuthResult.accepted ∧
    authorization ["127.0.0.1", "::1"] none (some "10.0.0.5") =
      AuthResult.disconnected := by
  refine ⟨?_, by decide, by decide⟩
  unfold authorization
  rw [h]
  by_cases hs : s = ""
  · subst hs
    by_cases hmem : "" ∈ allow <;>
      simp [stripNonDigitDot_empty, hmem]
  · by_cases hraw : s ∈ allow
    · simp [hs, hraw]
    · by_cases hstrip : stripNonDigitDot s ∈ allow <;>
        simp [hs, hraw, hstrip]

/-- Witness for C4 at a concrete allowlist and address. -/
theorem authorization_accepts_iff_witness :
    (authorization ["127.0.0.1"] (some "::ffff:127.0.0.1") none =
        AuthResult.accepted ↔
      ("::ffff:127.0.0.1" ∈ ["127.0.0.1"] ∨
        stripNonDigitDot "::ffff:127.0.0.1" ∈ ["127.0.0.1"])) ∧
    authorization ["127.0.0.1", "::1"] (some "::ffff:127.0.0.1") none =
      AuthResult.accepted ∧
    authorization ["127.0.0.1", "::1"] none (some "10.0.0.5") =
      AuthResult.disconnected :=
  authorization_accepts_iff ["127.0.0.1"] (some "::ffff:127.0.0.1") none
    "::ffff:127.0.0.1" (by decide)

/-- C5 (the code as written): with no forwarded-for header and no socket
address, `socketIP` is `undefined`, and the middleware evaluates
`socketIP.replace(/[^\d.]/g, '')`, which throws a `TypeError` — the socket is
not disconnected gracefully. -/
theorem authorization_missing_address_throws (allow : List String) :
    authorization allow none none = AuthResult.threw := rfl

/-! ## Event router and manager registry (server `setEvents`)

`socket.use` rejects any packet whose event name is not in the fixed `events`
list by invoking the acknowledgment callback with `"method isn't allowed"`
and not calling `next`; allowed events reach the per-event handler
`callback.bind(this, event)`, which looks the manager up with
`findBySteamID` and relays the operation's promise outcome through the
callback. -/

/-- A server-side manager instance: its `steamID.getSteamID64()` value and
its named async operations, each returning a fulfilled value or a rejection
carrying an error message (`err.message`). -/
structure SManager (α β : Type) where
  steamID64 : String
  op : String → α → Except String β

/-- What the acknowledgment callback is invoked with: `cb(msg)` on failure,
`cb(null, data)` on success. -/
inductive CbResult (β : Type) where
  | err (msg : String) : CbResult β
  | ok (d : β) : CbResult β
deriving DecidableEq

/-- `RemoteManager.prototype.findBySteamID`: first configured manager whose
steamID64 equals the requested identifier. -/
def findBySteamID {α β : Type} (managers : List (SManager α β))
    (steamID : String) : Option (SManager α β) :=
  managers.find? (fun element => element.steamID64 = steamID)

/-- The per-event `callback`: look the manager up; reply
`"manager wasn't found"` when absent, otherwise invoke `manager[method](args)`
and relay.  The second component records every manager operation invoked, as
`(steamID64, method)` pairs. -/
def callback {α β : Type} (managers : List (SManager α β))
    (method steamID : String) (args : α) :
    CbResult β × List (String × String) :=
  match findBySteamID managers steamID with
  | none => (.err "manager wasn't found", [])
  | some manager =>
    match manager.op method args with
    | .ok d => (.ok d, [(manager.steamID64, method)])
    | .error e => (.err e, [(manager.steamID64, method)])

/-- The fixed operation set shared by the router and the proxy. -/
def events : List String := ["createOffer", "loadInventory"]

/-- Net effect of one inbound packet `[event, {steamID, args}, cb]` on an
accepted connection: the callback reply, whether the packet was forwarded
past the middleware (`next()` called), and the manager operations invoked. -/
structure ServerOutcome (β : Type) where
  ack : CbResult β
  forwarded : Bool
  invoked : List (String × String)
deriving DecidableEq

/-- The `socket.use` middleware composed with the per-event handlers. -/
def handleEvent {α β : Type} (managers : List (SManager α β))
    (event steamID : String) (args : α) : ServerOutcome β :=
  if events.contains event then
    let r := callback managers event steamID args
    ⟨r.1, true, r.2⟩
  else ⟨.err "method isn't allowed", false, []⟩

/-- C6: an inbound event outside `{createOffer, loadInventory}` is answered
with `"method isn't allowed"` through the acknowledgment callback, is never
forwarded past the middleware, and invokes no manager operation; an event in
the set is forwarded to the per-operation handler. -/
theorem router_blocks_unknown_events {α β : Type}
    (managers : List (SManager α β)) (event steamID : String) (args : α) :
    (event ∉ events →
      handleEvent managers event steamID args =
        ⟨CbResult.err "method isn't allowed", false, []⟩) ∧
    (event ∈ events →
      (handleEvent managers event steamID args).forwarded = true ∧
      (handleEvent managers event steamID args).ack =
        (callback managers event steamID args).1 ∧
      (handleEvent managers event steamID args).invoked =
        (callback managers event steamID args).2) := by
  constructor
  · intro h
    simp [handleEvent, h]
  · intro h
    simp [handleEvent, h]

/-- Witness for C6 at concrete events. -/
theorem router_blocks_unknown_events_witness :
    handleEvent ([] : List (SManager Unit String)) "disconnect" "A" () =
      ⟨CbResult.err "method isn't allowed", false, []⟩ ∧
    (handleEvent ([] : List (SManager Unit String)) "loadInventory" "A"
        ()).forwarded = true :=
  ⟨(router_blocks_unknown_events [] "disconnect" "A" ()).1 (by decide),
   ((router_blocks_unknown_events [] "loadInventory" "A" ()).2
     (by decide)).1⟩

/-- C7: when no configured manager's steamID64 equals the requested
identifier, the callback is invoked with `"manager wasn't found"` and no
operation is invoked; when the lookup succeeds, the named operation is
invoked on that manager with `args`, a fulfillment `d` is relayed as
`cb(null, d)` and a rejection with message `e` is relayed as `cb(e)`. -/
theorem registry_dispatch {α β : Type} (managers : List (SManager α β))
    (method steamID : String) (args : α) :
    ((∀ m ∈ managers, m.steamID64 ≠ steamID) →
      callback managers method steamID args =
        (CbResult.err "manager wasn't found", [])) ∧
    (∀ m, findBySteamID managers steamID = some m →
      (callback managers method steamID args).2 = [(m.steamID64, method)] ∧
      (∀ d, m.op method args = Except.ok d →
        (callback managers method steamID args).1 = CbResult.ok d) ∧
      (∀ e, m.op method args = Except.error e →
        (callback managers method steamID args).1 = CbResult.err e)) := by
  constructor
  · intro h
    have hfind : findBySteamID managers steamID = none := by
      apply List.find?_eq_none.mpr
      intro m hm
      simpa using h m hm
    simp [callback, hfind]
  · intro m hm
    refine ⟨?_, ?_, ?_⟩
    · simp only [callback, hm]
      rcases hop : m.op method args with e | d <;> simp
    · intro d hd
      simp [callback, hm, hd]
    · intro e he
      simp [callback, hm, he]

/-- Witness for C7: a server configured with only identifier `"B"` answers a
`loadInventory` request for identifier `"A"` with `"manager wasn't found"`,
and answers a request for `"B"` with the operation's fulfillment value. -/
theorem registry_dispatch_witness :
    callback
        ([⟨"B", fun _ _ => Except.ok "inventory"⟩] :
          List (SManager Unit String)) "loadInventory" "A" () =
      (CbResult.err "manager wasn't found", []) ∧
    (callback
        ([⟨"B", fun _ _ => Except.ok "inventory"⟩] :
          List (SManager Unit String)) "loadInventory" "B" ()).1 =
      CbResult.ok "inventory" :=
  ⟨(registry_dispatch _ "loadInventory" "A" ()).1
    (by
      intro m hm
      rw [List.mem_singleton] at hm
      subst hm
      decide),
   (((registry_dispatch _ "loadInventory" "B" ()).2
      ⟨"B", fun _ _ => Except.ok "inventory"⟩ (by rfl)).2.1 "inventory"
      (by rfl))⟩

/-! ## Event forwarder (server `setManagers`)

Each manager's domain events are rebroadcast with
`io.emit(name, Object.assign(payload, steamID))`, where `steamID` is the
account's identifier **string**.  `Object.assign` with a string source copies
the string's own enumerable properties — its character positions, keyed
`"0"`, `"1"`, … — onto the target; it does not add a `steamID` field. -/

/-- A JS property value in a broadcast payload: a string, or an otherwise
opaque value (item data, an offer object, a trade state). -/
inductive JSVal where
  | str (s : String) : JSVal
  | data (n : Nat) : JSVal
deriving DecidableEq

/-- A JS object, as its ordered own enumerable properties. -/
abbrev JsObj : Type := List (String × JSVal)

/-- `target[k] = v`: overwrite an existing property in place, else append. -/
def setProp (o : JsObj) (k : String) (v : JSVal) : JsObj :=
  if o.any (fun p => p.1 = k) then
    o.map (fun p => if p.1 = k then (k, v) else p)
  else o ++ [(k, v)]

/-- The own enumerable properties of a string: its characters, keyed by
decimal index. -/
def stringOwnProps (s : String) : JsObj :=
  s.data.enum.map (fun p => (toString p.1, JSVal.str (String.mk [p.2])))

/-- `Object.assign(target, source)` for an object source: copy each own
enumerable property of the source onto the target, in order. -/
def objectAssign (target : JsObj) (source : JsObj) : JsObj :=
  source.foldl (fun acc kv => setProp acc kv.1 kv.2) target

/-- `Object.assign(data, steamID)` with a string `steamID`. -/
def objectAssignStr (target : JsObj) (s : String) : JsObj :=
  objectAssign target (stringOwnProps s)

/-- The `newItems` broadcast: event name and payload
`Object.assign(data, steamID)`. -/
def broadcastNewItems (itemData : JsObj) (steamID : String) :
    String × JsObj :=
  ("newItems", objectAssignStr itemData steamID)

/-- The `sentOfferChanged`/`receivedOfferChanged` broadcasts: event name and
payload `Object.assign({ offer, oldState }, steamID)`. -/
def broadcastOfferChanged (event : String) (offer oldState : JSVal)
    (steamID : String) : String × JsObj :=
  (event, objectAssignStr [("offer", offer), ("oldState", oldState)] steamID)

/-- C8 (the code as written): a `newItems` event from the manager with
identifier `"76"` and item data `{}` is broadcast as
`{"0": "7", "1": "6"}` — `Object.assign(data, steamID)` spreads the
identifier string's characters by index; no property of the payload is named
`steamID` or `identifier`, and none holds the identifier string, so receivers
cannot attribute the event. -/
theorem newItems_broadcast_drops_identifier :
    (broadcastNewItems [] "76").2 =
      [("0", JSVal.str "7"), ("1", JSVal.str "6")] ∧
    ((broadcastNewItems [] "76").2.all
        (fun p => !(p.1 == "steamID") && !(p.1 == "identifier") &&
          !(p.2 == JSVal.str "76")) = true) ∧
    (broadcastOfferChanged "sentOfferChanged" (JSVal.data 0) (JSVal.data 1)
        "76").2 =
      [("offer", JSVal.data 0), ("oldState", JSVal.data 1),
        ("0", JSVal.str "7"), ("1", JSVal.str "6")] := by
  refine ⟨by decide, by decide, by decide⟩

/-! ## Connection supervisor (client `setConnection`)

`setConnection` registers handlers on the socket.io client socket:
`error`, `connect_error` and `connect_timeout` each run
`io.emit('disconnect')` — `disconnect` is a reserved socket.io event name,
so the emit dispatches locally to the registered `disconnect` handler rather
than sending a packet — and the `disconnect` handler runs `io.disconnect()`
then `setTimeout(() => io.open(), 1000)`. -/

/-- Primitive effects a handler can have: re-emit a (reserved) event locally,
forcibly close the channel (`io.disconnect()`), or schedule `io.open()` after
a delay in milliseconds. -/
inductive ClientAction where
  | emitLocal (ev : String) : ClientAction
  | closeChannel : ClientAction
  | scheduleOpen (delayMs : Nat) : ClientAction
deriving DecidableEq

/-- The handlers `setConnection` registers, as the effect list each event
name triggers. -/
def listeners (ev : String) : List ClientAction :=
  if ev = "error" then [.emitLocal "disconnect"]
  else if ev = "connect_error" then [.emitLocal "disconnect"]
  else if ev = "connect_timeout" then [.emitLocal "disconnect"]
  else if ev = "disconnect" then [.closeChannel, .scheduleOpen 1000]
  else []

/-- One level of local dispatch: a local emit runs the listeners of the
emitted event; other effects stand. -/
def dispatchOnce : ClientAction → List ClientAction
  | .emitLocal ev => listeners ev
  | a => [a]

/-- The full effect of one channel signal: run its listeners and expand the
local `disconnect` re-emits (whose own handler emits nothing further). -/
def signalEffects (ev : String) : List ClientAction :=
  (listeners ev).flatMap dispatchOnce

/-- Effects of a whole sequence of channel signals, in order. -/
def runSignals (sigs : List String) : List ClientAction :=
  sigs.flatMap signalEffects

/-- Every signal either takes the full disconnection path or does nothing. -/
theorem signalEffects_cases (ev : String) :
    signalEffects ev =
        [ClientAction.closeChannel, ClientAction.scheduleOpen 1000] ∨
      signalEffects ev = [] := by
  unfold signalEffects listeners
  by_cases h1 : ev = "error"
  · simp [h1, dispatchOnce, listeners]
  by_cases h2 : ev = "connect_error"
  · simp [h1, h2, dispatchOnce, listeners]
  by_cases h3 : ev = "connect_timeout"
  · simp [h1, h2, h3, dispatchOnce, listeners]
  by_cases h4 : ev = "disconnect"
  · simp [h1, h2, h3, h4, dispatchOnce, listeners]
  · simp [h1, h2, h3, h4]

/-- C9: the supervisor funnels `error`, `connect_error` and `connect_timeout`
into exactly the `disconnect` path; that path forcibly closes the channel and
schedules a reopen after the fixed 1000 ms delay; every reopen ever scheduled
uses that same delay (no backoff growth); and after any history of signals a
further `disconnect` still closes and reschedules (no retry limit). -/
theorem supervisor_fixed_retry :
    (∀ ev ∈ ["error", "connect_error", "connect_timeout"],
      signalEffects ev = signalEffects "disconnect") ∧
    signalEffects "disconnect" =
      [ClientAction.closeChannel, ClientAction.scheduleOpen 1000] ∧
    (∀ sigs : List String, ∀ d : Nat,
      ClientAction.scheduleOpen d ∈ runSignals sigs → d = 1000) ∧
    (∀ sigs : List String,
      runSignals (sigs ++ ["disconnect"]) =
        runSignals sigs ++
          [ClientAction.closeChannel, ClientAction.scheduleOpen 1000]) := by
  refine ⟨?_, by decide, ?_, ?_⟩
  · intro ev hev
    simp only [List.mem_cons, List.not_mem_nil, or_false] at hev
    rcases hev with h | h | h <;> subst h <;> decide
  · intro sigs d hd
    rcases List.mem_flatMap.mp hd with ⟨ev, _, hmem⟩
    rcases signalEffects_cases ev with hc | hc <;> rw [hc] at hmem
    · rcases List.mem_cons.mp hmem with h | h
      · exact absurd h (by simp)
      · rcases List.mem_singleton.mp h with h
        injection h
    · simp at hmem
  · intro sigs
    unfold runSignals
    rw [List.flatMap_append]
    simp [signalEffects, listeners, dispatchOnce]

/-- Witness for C9 at a concrete signal and history. -/
theorem supervisor_fixed_retry_witness :
    signalEffects "error" = signalEffects "disconnect" ∧ (1000 : Nat) = 1000 :=
  ⟨supervisor_fixed_retry.1 "error" (by simp),
   supervisor_fixed_retry.2.2.1 ["error"] 1000 (by decide)⟩

end RemoteSteam
